import Mathlib

/-!
Verification of the Listing lifecycle core of the classifieds backend
(`backend/listings/models.py` and `backend/listings/views.py`).

The Django model layer is shallowly embedded: a `Listing` record carries the
fields that the lifecycle logic reads or writes, the listing table is a list of
rows, and `Listing.save` is translated statement by statement into
`listing_save_run`, including the order of the transition check, `full_clean`,
the timestamp assignment and the database write.  Primary keys and foreign keys
are natural numbers; `None` is `Option.none`, and Python truthiness of an
optional integer key (`if self.pk:`) is `pyTruthy`.  Timestamps are naturals
(only equality and presence matter to the properties below).
-/

namespace InfinityLife

/-- `ListingStatus` text choices (models.py lines 16-20). -/
inductive ListingStatus
  | draft
  | active
  | sold
  | archived
deriving DecidableEq, Repr, Fintype

/-- `STATUS_TRANSITIONS` (models.py lines 23-28): the allowed successor set of
each status, as a list standing for the Python set. -/
def STATUS_TRANSITIONS : ListingStatus → List ListingStatus
  | .draft => [.active, .archived]
  | .active => [.sold, .archived]
  | .sold => [.archived]
  | .archived => []

/-- `Listing.can_transition_to` (models.py lines 74-77), with the instance's
`self.status` passed explicitly as `current`. -/
def can_transition_to (current new_status : ListingStatus) : Bool :=
  if new_status == current then true
  else (STATUS_TRANSITIONS current).contains new_status

/-- The fields of a `Listing` row that the lifecycle logic reads or writes.
Fields that never interact with the state machine, the validation rules or the
timestamps (owner, title, description, category, currency, is_negotiable,
created_at) are omitted from the embedding. -/
structure Listing where
  pk : Option Nat
  region_id : Option Nat
  city_id : Option Nat
  price_amount : Option Int
  status : ListingStatus
  published_at : Option Nat
  sold_at : Option Nat
  archived_at : Option Nat
  updated_at : Option Nat
deriving DecidableEq, Repr

/-- The listing table: one row per persisted listing, each with `pk = some k`. -/
abbrev ListingDB := List Listing

/-- Reference data consumed by validation and by the database's foreign keys:
`cities` maps a city id to its `region_id`; `regions` lists the region ids. -/
structure Env where
  cities : List (Nat × Nat)
  regions : List Nat
deriving DecidableEq, Repr

/-- `self.city.region_id`: the parent region of a city, `none` when no such
city row exists (in which case the attribute access raises `DoesNotExist`). -/
def city_region (cities : List (Nat × Nat)) (c : Nat) : Option Nat :=
  (cities.find? (fun p => p.1 == c)).map (fun p => p.2)

/-- Python truthiness of an optional integer key: `None` and `0` are falsy. -/
def pyTruthy : Option Nat → Bool
  | none => false
  | some n => n != 0

/-- `Listing.objects.filter(pk=k).values_list("status", flat=True).first()`
(models.py line 91). -/
def lookup_row (db : ListingDB) (k : Nat) : Option Listing :=
  db.find? (fun r => r.pk == some k)

def lookup_status (db : ListingDB) (k : Nat) : Option ListingStatus :=
  (lookup_row db k).map (fun r => r.status)

/-- The distinct validation rules the model can report.  `invalidTransition` is
the `{"status": ...}` error of `Listing.save`; `nullRegion`/`nullCity` are the
`clean_fields` null checks on the two non-nullable foreign keys the embedding
carries; the remaining three are the business rules of `Listing.clean` and the
`listing_price_non_negative` check constraint. -/
inductive Rule
  | invalidTransition
  | nullRegion
  | nullCity
  | referentialMismatch
  | priceRequired
  | negativePrice
deriving DecidableEq, Repr

/-- Exceptions a save can surface: a `ValidationError` carrying its collected
rules, a `City.DoesNotExist` escaping `Listing.clean`, or a database-level
`IntegrityError` (foreign keys, check constraint). -/
inductive SaveExc
  | validation (errors : List Rule)
  | doesNotExist
  | integrityError
deriving DecidableEq, Repr

/-- What `Listing.clean` (models.py lines 67-72) raises, if anything.  The two
business checks run in source order and the method raises at the first failed
one; dereferencing `self.city` for a missing city raises `DoesNotExist`. -/
def model_clean (cities : List (Nat × Nat)) (l : Listing) : Option SaveExc :=
  let cityCheck : Option SaveExc :=
    if pyTruthy l.city_id && pyTruthy l.region_id then
      match city_region cities (l.city_id.getD 0) with
      | none => some .doesNotExist
      | some cr =>
          if cr != l.region_id.getD 0 then some (.validation [.referentialMismatch])
          else none
    else none
  match cityCheck with
  | some e => some e
  | none =>
      if (l.status == .active || l.status == .sold) && l.price_amount.isNone then
        some (.validation [.priceRequired])
      else none

/-- The `clean_fields` stage of `full_clean` restricted to the embedded fields:
the `region` and `city` foreign keys are declared without `null=True`, so a
`None` value fails field validation (fields are checked in declaration order,
region before city). -/
def clean_fields (l : Listing) : List Rule :=
  (if l.region_id.isNone then [Rule.nullRegion] else []) ++
  (if l.city_id.isNone then [Rule.nullCity] else [])

/-- The `validate_constraints` stage of `full_clean`: the
`listing_price_non_negative` check constraint
`Q(price_amount__gte=0) | Q(price_amount__isnull=True)` (models.py 60-65). -/
def validate_constraints (l : Listing) : List Rule :=
  match l.price_amount with
  | none => []
  | some p => if p < 0 then [Rule.negativePrice] else []

/-- `self.full_clean()` as Django runs it: `clean_fields` errors are collected,
then `Listing.clean` runs — a `ValidationError` from it is merged into the
collected dict while a `DoesNotExist` propagates immediately — then constraint
validation runs, and the merged errors (if any) are raised as one
`ValidationError`. -/
def model_full_clean (cities : List (Nat × Nat)) (l : Listing) : Option SaveExc :=
  let fieldErrors := clean_fields l
  match model_clean cities l with
  | some .doesNotExist => some .doesNotExist
  | some (.validation es) =>
      some (.validation (fieldErrors ++ es ++ validate_constraints l))
  | some .integrityError => some .integrityError
  | none =>
      let es := fieldErrors ++ validate_constraints l
      if es.isEmpty then none else some (.validation es)

/-- `Listing._apply_status_timestamps` (models.py lines 79-86):
`self.published_at = self.published_at or now` under the entry condition, and
likewise for `sold_at` and `archived_at`. -/
def apply_status_timestamps (l : Listing) (previous_status : Option ListingStatus)
    (now : Nat) : Listing :=
  let l1 :=
    if l.status == .active && previous_status != some ListingStatus.active then
      { l with published_at := some (l.published_at.getD now) }
    else l
  let l2 :=
    if l1.status == .sold && previous_status != some ListingStatus.sold then
      { l1 with sold_at := some (l1.sold_at.getD now) }
    else l1
  if l2.status == .archived && previous_status != some ListingStatus.archived then
    { l2 with archived_at := some (l2.archived_at.getD now) }
  else l2

/-- The database-level foreign-key requirements on a row: `city` and `region`
are non-null columns referencing existing rows. -/
def fk_ok (env : Env) (l : Listing) : Bool :=
  (match l.city_id with
   | some c => (city_region env.cities c).isSome
   | none => false) &&
  (match l.region_id with
   | some r => env.regions.contains r
   | none => false)

/-- A fresh primary key for an insert: one more than the largest key in use. -/
def fresh_pk (db : ListingDB) : Nat :=
  (db.foldr (fun r m => max m (r.pk.getD 0)) 0) + 1

/-- `super().save(*args, **kwargs)`: the database write.  `updated_at` is the
`auto_now` column refreshed on every write; an existing row (matched by pk) is
updated in place, otherwise the row is inserted; the foreign keys and the
`listing_price_non_negative` check constraint are enforced by the database. -/
def super_save (env : Env) (db : ListingDB) (l : Listing) (now : Nat) :
    Except SaveExc (Listing × ListingDB) :=
  if !(fk_ok env l) then .error .integrityError
  else if (match l.price_amount with | some p => decide (p < 0) | none => false) then
    .error .integrityError
  else
    let lw := { l with updated_at := some now }
    match lw.pk with
    | some k =>
        if (lookup_row db k).isSome then
          .ok (lw, db.map (fun r => if r.pk == some k then lw else r))
        else
          .ok (lw, db ++ [lw])
    | none =>
        let li := { lw with pk := some (fresh_pk db) }
        .ok (li, db ++ [li])

/-- The outcome of running `Listing.save`: the raised exception (if any), the
in-memory instance as the statement left it, and the table afterwards. -/
structure SaveOutcome where
  error : Option SaveExc
  listing : Listing
  db : ListingDB
deriving DecidableEq, Repr

/-- The tail of `Listing.save` after the transition check (models.py 99-101):
`self.full_clean()`, then `self._apply_status_timestamps(previous_status)`,
then `super().save()`.  A failure aborts at the statement that raised it. -/
def after_transition (env : Env) (db : ListingDB) (l : Listing)
    (previous_status : Option ListingStatus) (now : Nat) : SaveOutcome :=
  match model_full_clean env.cities l with
  | some e => ⟨some e, l, db⟩
  | none =>
      let l1 := apply_status_timestamps l previous_status now
      match super_save env db l1 now with
      | .error e => ⟨some e, l1, db⟩
      | .ok (l2, db2) => ⟨none, l2, db2⟩

/-- `Listing.save` (models.py lines 88-101), statement by statement.  With a
truthy pk the previous status is re-read from the table and a changed status
must pass `can_transition_to`; a row-less pk skips the check; with no pk the
requested status is checked against a fresh default-`draft` instance. -/
def listing_save_run (env : Env) (db : ListingDB) (l : Listing) (now : Nat) :
    SaveOutcome :=
  if pyTruthy l.pk then
    match lookup_status db (l.pk.getD 0) with
    | some prev =>
        if prev != l.status && !(can_transition_to prev l.status) then
          ⟨some (.validation [.invalidTransition]), l, db⟩
        else after_transition env db l (some prev) now
    | none => after_transition env db l none now
  else
    if l.status != ListingStatus.draft &&
        !(can_transition_to ListingStatus.draft l.status) then
      ⟨some (.validation [.invalidTransition]), l, db⟩
    else after_transition env db l none now

/-- `Listing.save` as a fallible function: the raised exception, or the saved
instance with the updated table. -/
def listing_save (env : Env) (db : ListingDB) (l : Listing) (now : Nat) :
    Except SaveExc (Listing × ListingDB) :=
  match listing_save_run env db l now with
  | ⟨some e, _, _⟩ => .error e
  | ⟨none, l2, db2⟩ => .ok (l2, db2)

/-! ### ListingImage and its primary-image constraint (models.py 107-125) -/

/-- The fields of a `ListingImage` row that the primary-image logic touches
(the file payload itself and `created_at` are irrelevant to it). -/
structure ListingImage where
  pk : Option Nat
  listing_id : Nat
  sort_order : Nat
  is_primary : Bool
deriving DecidableEq, Repr

abbrev ImageDB := List ListingImage

/-- The writable payload of an image create/update (serializers.py: `listing`,
`image`, `sort_order`, `is_primary` are writable; `id` is read-only). -/
structure ImagePayload where
  listing_id : Nat
  sort_order : Nat
  is_primary : Bool
deriving DecidableEq, Repr

/-- The image mutations the generic `ListingImageViewSet` (views.py 27-36)
exposes: create, update and delete of a single row. -/
inductive ImageOp
  | insert (p : ImagePayload)
  | update (k : Nat) (p : ImagePayload)
  | delete (k : Nat)
deriving DecidableEq, Repr

inductive ImgErr
  | notFound
  | primaryImageConflict
deriving DecidableEq, Repr

/-- Number of rows of a listing with `is_primary = true`. -/
def primaryCount (db : ImageDB) (lid : Nat) : Nat :=
  db.countP (fun i => i.listing_id == lid && i.is_primary)

/-- The `unique_primary_listing_image` partial unique constraint
(models.py 116-122): among the rows with `is_primary = true`, the `listing`
field is unique — no listing has two primary rows. -/
def uniquePrimaryOk (db : ImageDB) : Bool :=
  db.all (fun i => primaryCount db i.listing_id ≤ 1)

def lookup_image (db : ImageDB) (k : Nat) : Option ListingImage :=
  db.find? (fun i => i.pk == some k)

def fresh_image_pk (db : ImageDB) : Nat :=
  (db.foldr (fun i m => max m (i.pk.getD 0)) 0) + 1

/-- The row-level effect of an image mutation, before the database checks the
constraint: an insert appends a fresh row, an update rewrites the row with the
given id and a delete removes it; an unknown id is `NotFound` (the 404 of the
generic detail route). -/
def imageApply (db : ImageDB) : ImageOp → Except ImgErr ImageDB
  | .insert p =>
      .ok (db ++ [⟨some (fresh_image_pk db), p.listing_id, p.sort_order, p.is_primary⟩])
  | .update k p =>
      if (lookup_image db k).isSome then
        .ok (db.map (fun i =>
          if i.pk == some k then ⟨some k, p.listing_id, p.sort_order, p.is_primary⟩ else i))
      else .error .notFound
  | .delete k =>
      if (lookup_image db k).isSome then
        .ok (db.filter (fun i => !(i.pk == some k)))
      else .error .notFound

/-- An image write as the code commits it: the row change goes to the database,
which accepts the new table only if `unique_primary_listing_image` still holds
and otherwise rejects the write (PrimaryImageConflict). -/
def image_write (db : ImageDB) (op : ImageOp) : Except ImgErr ImageDB :=
  match imageApply db op with
  | .error e => .error e
  | .ok cand => if uniquePrimaryOk cand then .ok cand else .error .primaryImageConflict

/-- Modelled from the spec (§4.2), not from the source: the operation
`setPrimary(listing, imageId)` the specification describes — atomically clear
`is_primary` on every other image of the listing and set it on the target,
failing with `NotFound` when `imageId` does not belong to the listing.  No
function of the repository implements this; the definition exists to be
compared with the writes the code actually exposes. -/
def set_primary_spec (db : ImageDB) (listing_id imageId : Nat) :
    Except ImgErr ImageDB :=
  match db.find? (fun i => i.pk == some imageId && i.listing_id == listing_id) with
  | none => .error .notFound
  | some _ =>
      .ok (db.map (fun i =>
        if i.listing_id == listing_id then { i with is_primary := i.pk == some imageId }
        else i))

/-! ### Helper lemmas about the save pipeline -/

theorem clean_fields_mem {l : Listing} {r : Rule} (h : r ∈ clean_fields l) :
    r = Rule.nullRegion ∨ r = Rule.nullCity := by
  unfold clean_fields at h
  rcases List.mem_append.1 h with h | h <;> split at h <;> simp_all

theorem validate_constraints_mem {l : Listing} {r : Rule}
    (h : r ∈ validate_constraints l) : r = Rule.negativePrice := by
  unfold validate_constraints at h
  split at h
  · simp at h
  · split at h <;> simp_all

theorem model_clean_validation_sub {cs : List (Nat × Nat)} {l : Listing}
    {es : List Rule} (h : model_clean cs l = some (SaveExc.validation es)) :
    es = [Rule.referentialMismatch] ∨ es = [Rule.priceRequired] := by
  simp only [model_clean] at h
  split at h
  · rename_i e heq
    split at heq
    · split at heq
      · simp_all
      · split at heq <;> simp_all
    · simp_all
  · split at h <;> simp_all

theorem full_clean_no_invalid {cs : List (Nat × Nat)} {l : Listing} {es : List Rule}
    (h : model_full_clean cs l = some (SaveExc.validation es)) :
    Rule.invalidTransition ∉ es := by
  intro hmem
  simp only [model_full_clean] at h
  split at h
  · exact absurd h (by simp)
  · rename_i es' heq
    have hsub := model_clean_validation_sub heq
    have hes : es = clean_fields l ++ es' ++ validate_constraints l := by
      simpa using h.symm
    subst hes
    rcases List.mem_append.1 hmem with hmem | hmem
    · rcases List.mem_append.1 hmem with hmem | hmem
      · rcases clean_fields_mem hmem with h1 | h1 <;> simp_all
      · rcases hsub with h1 | h1 <;> simp_all
    · have := validate_constraints_mem hmem; simp_all
  · simp at h
  · split at h
    · exact absurd h (by simp)
    · have hes : es = clean_fields l ++ validate_constraints l := by simpa using h.symm
      subst hes
      rcases List.mem_append.1 hmem with hmem | hmem
      · rcases clean_fields_mem hmem with h1 | h1 <;> simp_all
      · have := validate_constraints_mem hmem; simp_all

theorem super_save_error_eq {env : Env} {db : ListingDB} {li : Listing} {now : Nat}
    {e : SaveExc} (h : super_save env db li now = .error e) :
    e = SaveExc.integrityError := by
  simp only [super_save] at h
  split at h
  · simp_all
  · split at h
    · simp_all
    · split at h
      · split at h <;> simp_all
      · simp_all

theorem after_transition_error_ne_invalid {env : Env} {db : ListingDB} {l : Listing}
    {prev : Option ListingStatus} {now : Nat} {e : SaveExc} {l2 : Listing}
    {db2 : ListingDB}
    (h : after_transition env db l prev now = ⟨some e, l2, db2⟩) :
    e ≠ SaveExc.validation [Rule.invalidTransition] := by
  intro hbad
  subst hbad
  simp only [after_transition] at h
  split at h
  · rename_i e0 heq
    have he : e0 = SaveExc.validation [Rule.invalidTransition] := by
      have := congrArg SaveOutcome.error h
      simpa using this
    subst he
    exact full_clean_no_invalid heq (by simp)
  · split at h
    · rename_i e0 heq
      have he : e0 = SaveExc.validation [Rule.invalidTransition] := by
        have := congrArg SaveOutcome.error h
        simpa using this
      subst he
      exact absurd (super_save_error_eq heq) (by simp)
    · exact absurd (congrArg SaveOutcome.error h) (by simp)

theorem after_transition_validation_no_invalid {env : Env} {db : ListingDB}
    {l : Listing} {prev : Option ListingStatus} {now : Nat} {es : List Rule}
    {l2 : Listing} {db2 : ListingDB}
    (h : after_transition env db l prev now = ⟨some (SaveExc.validation es), l2, db2⟩) :
    Rule.invalidTransition ∉ es := by
  simp only [after_transition] at h
  split at h
  · rename_i e0 heq
    have he : e0 = SaveExc.validation es := by
      have := congrArg SaveOutcome.error h
      simpa using this
    subst he
    exact full_clean_no_invalid heq
  · split at h
    · rename_i e0 heq
      have he : e0 = SaveExc.validation es := by
        have := congrArg SaveOutcome.error h
        simpa using this
      subst he
      exact absurd (super_save_error_eq heq) (by simp)
    · exact absurd (congrArg SaveOutcome.error h) (by simp)

/-- When the transition guard lets the write through, `listing_save` can never
surface the `invalidTransition` rule. -/
theorem save_after_no_invalid {env : Env} {db : ListingDB} {l : Listing}
    {prev : Option ListingStatus} {now : Nat} {es : List Rule}
    (hrun : listing_save_run env db l now = after_transition env db l prev now)
    (h : listing_save env db l now = .error (.validation es)) :
    Rule.invalidTransition ∉ es := by
  simp only [listing_save, hrun] at h
  rcases hat : after_transition env db l prev now with ⟨oe, l2, db2⟩
  rw [hat] at h
  cases oe with
  | some e =>
      simp only at h
      have he : e = SaveExc.validation es := by
        have := h
        simp only [Except.error.injEq] at this
        exact this
      subst he
      exact after_transition_validation_no_invalid hat
  | none => simp at h

/-- Normal form of `apply_status_timestamps`: the three sequential updates
touch disjoint fields and their guards read only `status`, which none of them
changes. -/
theorem apply_status_timestamps_eq (l : Listing) (prev : Option ListingStatus)
    (now : Nat) :
    apply_status_timestamps l prev now =
      { l with
        published_at :=
          if l.status == .active && prev != some ListingStatus.active then
            some (l.published_at.getD now)
          else l.published_at,
        sold_at :=
          if l.status == .sold && prev != some ListingStatus.sold then
            some (l.sold_at.getD now)
          else l.sold_at,
        archived_at :=
          if l.status == .archived && prev != some ListingStatus.archived then
            some (l.archived_at.getD now)
          else l.archived_at } := by
  rcases l with ⟨pk, rid, cid, pa, st, pub, so, ar, up⟩
  rcases prev with _ | p
  · cases st <;> simp [apply_status_timestamps]
  · cases st <;> cases p <;> simp [apply_status_timestamps]

theorem after_transition_ok {env : Env} {db : ListingDB} {l : Listing}
    {prev : Option ListingStatus} {now : Nat} {l2 : Listing} {db2 : ListingDB}
    (h : after_transition env db l prev now = ⟨none, l2, db2⟩) :
    model_full_clean env.cities l = none ∧
      super_save env db (apply_status_timestamps l prev now) now = .ok (l2, db2) := by
  simp only [after_transition] at h
  split at h
  · exact absurd (congrArg SaveOutcome.error h) (by simp)
  · rename_i hclean
    split at h
    · exact absurd (congrArg SaveOutcome.error h) (by simp)
    · rename_i la dba heq
      simp only [SaveOutcome.mk.injEq] at h
      obtain ⟨-, rfl, rfl⟩ := h
      exact ⟨hclean, heq⟩

theorem save_ok_shape {env : Env} {db : ListingDB} {l : Listing} {now : Nat}
    {l2 : Listing} {db2 : ListingDB}
    (h : listing_save env db l now = .ok (l2, db2)) :
    ∃ prev, model_full_clean env.cities l = none ∧
      super_save env db (apply_status_timestamps l prev now) now = .ok (l2, db2) := by
  have hrun : listing_save_run env db l now = ⟨none, l2, db2⟩ := by
    revert h
    simp only [listing_save]
    rcases hr : listing_save_run env db l now with ⟨oe, la, dba⟩
    cases oe
    · simp only [Except.ok.injEq, Prod.mk.injEq]
      rintro ⟨rfl, rfl⟩
      rfl
    · simp
  revert hrun
  simp only [listing_save_run]
  split
  · split
    · rename_i prev hl
      split
      · intro h2
        exact absurd (congrArg SaveOutcome.error h2) (by simp)
      · intro h2
        exact ⟨some prev, after_transition_ok h2⟩
    · intro h2
      exact ⟨none, after_transition_ok h2⟩
  · split
    · intro h2
      exact absurd (congrArg SaveOutcome.error h2) (by simp)
    · intro h2
      exact ⟨none, after_transition_ok h2⟩

theorem super_save_ok_fields {env : Env} {db : ListingDB} {li : Listing}
    {now : Nat} {l2 : Listing} {db2 : ListingDB}
    (h : super_save env db li now = .ok (l2, db2)) :
    l2.region_id = li.region_id ∧ l2.city_id = li.city_id ∧
    l2.price_amount = li.price_amount ∧ l2.status = li.status ∧
    l2.published_at = li.published_at ∧ l2.sold_at = li.sold_at ∧
    l2.archived_at = li.archived_at ∧ l2.updated_at = some now ∧
    fk_ok env li = true := by
  simp only [super_save] at h
  split at h
  · simp at h
  · rename_i hfk
    have hfk2 : fk_ok env li = true := by simpa using hfk
    split at h
    · simp at h
    · split at h
      · split at h
        all_goals {
          simp only [Except.ok.injEq, Prod.mk.injEq] at h
          obtain ⟨h1, -⟩ := h
          subst h1
          simp [hfk2]
        }
      · simp only [Except.ok.injEq, Prod.mk.injEq] at h
        obtain ⟨h1, -⟩ := h
        subst h1
        simp [hfk2]

theorem after_transition_atomic {env : Env} {db : ListingDB} {l : Listing}
    {prev : Option ListingStatus} {now : Nat} {e : SaveExc}
    (herr : (after_transition env db l prev now).error = some e)
    (hne : e ≠ SaveExc.integrityError) :
    (after_transition env db l prev now).listing = l ∧
      (after_transition env db l prev now).db = db := by
  revert herr
  simp only [after_transition]
  split
  · intro _
    exact ⟨rfl, rfl⟩
  · split
    · rename_i e0 heq
      intro h2
      simp only [Option.some.injEq] at h2
      exact absurd (h2 ▸ super_save_error_eq heq) hne
  -- unreachable branch: outcome has no error
    · intro h2
      simp at h2

/-- The realistic assumption on the reference data that Django/Postgres
guarantee in practice: primary keys handed out by the id sequences are
positive, so a non-null assigned id is always truthy in Python. -/
def posEnv (env : Env) : Prop :=
  (∀ p ∈ env.cities, 1 ≤ p.1) ∧ (∀ r ∈ env.regions, 1 ≤ r)

theorem city_region_mem {cs : List (Nat × Nat)} {c v : Nat}
    (h : city_region cs c = some v) : (c, v) ∈ cs := by
  unfold city_region at h
  rcases hf : cs.find? (fun p => p.1 == c) with _ | p
  · rw [hf] at h
    simp at h
  · rw [hf] at h
    simp at h
    have hmem := List.mem_of_find?_eq_some hf
    have hpred := List.find?_some hf
    simp only [beq_iff_eq] at hpred
    have : p = (c, v) := by
      rcases p with ⟨a, b⟩
      simp_all
    exact this ▸ hmem

theorem contains_mem {xs : List Nat} {a : Nat} (h : xs.contains a = true) :
    a ∈ xs := by
  simpa using h

theorem full_clean_none_clean {cs : List (Nat × Nat)} {l : Listing}
    (h : model_full_clean cs l = none) : model_clean cs l = none := by
  simp only [model_full_clean] at h
  split at h <;> simp_all

theorem model_clean_none_price {cs : List (Nat × Nat)} {l : Listing}
    (h : model_clean cs l = none)
    (hst : l.status = ListingStatus.active ∨ l.status = ListingStatus.sold)
    (hpr : l.price_amount = none) : False := by
  simp only [model_clean] at h
  split at h
  · simp at h
  · split at h
    · simp at h
    · rename_i hcond
      apply hcond
      rcases hst with h1 | h1 <;> simp [h1, hpr]

theorem model_clean_mismatch {cs : List (Nat × Nat)} {l : Listing} {c r cr : Nat}
    (hc : l.city_id = some c) (hc0 : c ≠ 0) (hr : l.region_id = some r)
    (hr0 : r ≠ 0) (hcr : city_region cs c = some cr) (hne : cr ≠ r) :
    model_clean cs l = some (.validation [.referentialMismatch]) := by
  simp [model_clean, pyTruthy, hc, hc0, hr, hr0, hcr, hne]

theorem fk_ok_spec {env : Env} {l : Listing} (h : fk_ok env l = true) :
    ∃ c r, l.city_id = some c ∧ l.region_id = some r ∧
      (city_region env.cities c).isSome = true ∧ env.regions.contains r = true := by
  unfold fk_ok at h
  rcases hc : l.city_id with _ | c <;> rcases hr : l.region_id with _ | r <;>
    rw [hc, hr] at h
  · simp at h
  · simp at h
  · simp at h
  · simp only [Bool.and_eq_true] at h
    exact ⟨c, r, rfl, rfl, h.1, h.2⟩

theorem apply_ts_fields (l : Listing) (prev : Option ListingStatus) (now : Nat) :
    (apply_status_timestamps l prev now).pk = l.pk ∧
    (apply_status_timestamps l prev now).region_id = l.region_id ∧
    (apply_status_timestamps l prev now).city_id = l.city_id ∧
    (apply_status_timestamps l prev now).price_amount = l.price_amount ∧
    (apply_status_timestamps l prev now).status = l.status ∧
    (apply_status_timestamps l prev now).updated_at = l.updated_at := by
  rw [apply_status_timestamps_eq]
  simp

theorem fk_ok_apply (env : Env) (l : Listing) (prev : Option ListingStatus)
    (now : Nat) :
    fk_ok env (apply_status_timestamps l prev now) = fk_ok env l := by
  unfold fk_ok
  rw [(apply_ts_fields l prev now).2.1, (apply_ts_fields l prev now).2.2.1]

theorem super_save_ok_of {env : Env} {db : ListingDB} {li : Listing} {now : Nat}
    (hfk : fk_ok env li = true)
    (hp : (match li.price_amount with
            | some p => decide (p < 0) | none => false) = false) :
    ∃ res, super_save env db li now = .ok res := by
  simp only [super_save, hfk, Bool.not_true, Bool.false_eq_true, if_false, hp]
  split
  · split
    · exact ⟨_, rfl⟩
    · exact ⟨_, rfl⟩
  · exact ⟨_, rfl⟩

theorem listing_save_ok_of {env : Env} {db : ListingDB} {l : Listing}
    {prev : Option ListingStatus} {now : Nat}
    (hrun : listing_save_run env db l now = after_transition env db l prev now)
    (hclean : model_full_clean env.cities l = none)
    (hsup : ∃ res, super_save env db (apply_status_timestamps l prev now) now = .ok res) :
    ∃ res, listing_save env db l now = .ok res := by
  obtain ⟨⟨l2, db2⟩, hs⟩ := hsup
  simp only [listing_save, hrun, after_transition, hclean, hs]
  exact ⟨_, rfl⟩

/-! ### Claim theorems -/

/-- C1: for every existing listing (a truthy pk whose row is found with
persisted status `prev`) and every requested status, the save fails with
`InvalidTransition` exactly when the requested status fails
`can_transition_to`, and `can_transition_to` accepts exactly the self-loops
and the direct successors of the fixed graph draft→{active,archived},
active→{sold,archived}, sold→{archived}, archived→{}. -/
theorem c1_status_transition_graph :
    (∀ current new_status : ListingStatus,
        can_transition_to current new_status = true ↔
          (new_status = current ∨ new_status ∈ STATUS_TRANSITIONS current)) ∧
    (∀ (env : Env) (db : ListingDB) (l : Listing) (now k : Nat)
        (prev : ListingStatus),
        l.pk = some k → k ≠ 0 → lookup_status db k = some prev →
        (listing_save env db l now =
            .error (.validation [.invalidTransition]) ↔
          can_transition_to prev l.status = false)) := by
  refine ⟨by decide, ?_⟩
  intro env db l now k prev hpk hk hlook
  have hpt : pyTruthy (some k) = true := by simp [pyTruthy, hk]
  have hrun : listing_save_run env db l now =
      (if prev != l.status && !(can_transition_to prev l.status) then
        ⟨some (.validation [.invalidTransition]), l, db⟩
      else after_transition env db l (some prev) now) := by
    simp [listing_save_run, hpt, hpk, hlook]
  cases hcan : can_transition_to prev l.status with
  | false =>
      have hne : prev ≠ l.status := by
        intro he
        rw [he] at hcan
        simp [can_transition_to] at hcan
      have hsave : listing_save env db l now =
          .error (.validation [.invalidTransition]) := by
        simp [listing_save, hrun, hcan, hne]
      simp [hsave, hcan]
  | true =>
      have hrun2 : listing_save_run env db l now =
          after_transition env db l (some prev) now := by
        rw [hrun, hcan]
        simp
      have hne2 : listing_save env db l now ≠
          .error (.validation [.invalidTransition]) := by
        intro hcontra
        have := save_after_no_invalid hrun2 hcontra
        simp at this
      simp [hne2, hcan]

/-- Witness for C1: a persisted `sold` listing written back to `draft` is
rejected with the invalid-transition error. -/
theorem c1_witness :
    listing_save ⟨[(10, 2)], [2]⟩
        [⟨some 1, some 2, some 10, some 3, ListingStatus.sold, none, none, none, none⟩]
        ⟨some 1, some 2, some 10, some 3, ListingStatus.draft, none, none, none, none⟩ 5 =
      .error (.validation [.invalidTransition]) :=
  (c1_status_transition_graph.2 ⟨[(10, 2)], [2]⟩
    [⟨some 1, some 2, some 10, some 3, ListingStatus.sold, none, none, none, none⟩]
    ⟨some 1, some 2, some 10, some 3, ListingStatus.draft, none, none, none, none⟩
    5 1 ListingStatus.sold rfl (by decide) (by decide)).mpr (by decide)

/-- C2 counterexample: the claim says creating a brand-new listing directly
with status `archived` fails the transition check with `InvalidTransition`;
in the code `archived` is a direct successor of `draft`
(`STATUS_TRANSITIONS[DRAFT] = {ACTIVE, ARCHIVED}`), so this concrete creation
succeeds outright (it does not raise at all). -/
theorem c2_counterexample :
    can_transition_to ListingStatus.draft ListingStatus.archived = true ∧
    listing_save ⟨[(10, 2)], [2]⟩ []
        ⟨none, some 2, some 10, some 3, ListingStatus.archived, none, none, none, none⟩ 5 =
      .ok (⟨some 1, some 2, some 10, some 3, ListingStatus.archived,
            none, none, some 5, some 5⟩,
        [⟨some 1, some 2, some 10, some 3, ListingStatus.archived,
            none, none, some 5, some 5⟩]) := by
  constructor
  · decide
  · rfl

/-- C2 (amended): for a brand-new listing (no pk) the effective current status
is `draft`: the save fails with `InvalidTransition` exactly when the listing
is created directly in `sold`; direct creation in `draft`, `active` or
`archived` passes the transition check, since both `active` and `archived`
are direct successors of `draft`. -/
theorem c2_new_listing_effective_draft :
    ∀ (env : Env) (db : ListingDB) (l : Listing) (now : Nat),
      l.pk = none →
      (listing_save env db l now = .error (.validation [.invalidTransition]) ↔
        l.status = .sold) := by
  intro env db l now hpk
  have hpt : pyTruthy l.pk = false := by simp [pyTruthy, hpk]
  have hrun : listing_save_run env db l now =
      (if l.status != ListingStatus.draft &&
          !(can_transition_to ListingStatus.draft l.status) then
        ⟨some (.validation [.invalidTransition]), l, db⟩
      else after_transition env db l none now) := by
    simp [listing_save_run, hpt]
  rcases hs : l.status
  case sold =>
    have hsave : listing_save env db l now =
        .error (.validation [.invalidTransition]) := by
      rw [hs] at hrun
      simp [listing_save, hrun, can_transition_to, STATUS_TRANSITIONS]
    simp [hsave, hs]
  all_goals {
    have hrun2 : listing_save_run env db l now =
        after_transition env db l none now := by
      rw [hrun, hs]
      simp [can_transition_to, STATUS_TRANSITIONS]
    have hne2 : listing_save env db l now ≠
        .error (.validation [.invalidTransition]) := by
      intro hcontra
      have := save_after_no_invalid hrun2 hcontra
      simp at this
    simp [hne2, hs]
  }

/-- Witness for C2 (amended): direct creation in `sold` is rejected as an
invalid transition. -/
theorem c2_witness :
    listing_save ⟨[(10, 2)], [2]⟩ []
        ⟨none, some 2, some 10, some 3, ListingStatus.sold, none, none, none, none⟩ 5 =
      .error (.validation [.invalidTransition]) :=
  (c2_new_listing_effective_draft ⟨[(10, 2)], [2]⟩ []
    ⟨none, some 2, some 10, some 3, ListingStatus.sold, none, none, none, none⟩
    5 rfl).mpr (by decide)

/-- C10: when the saved instance carries a truthy pk but the fresh status
lookup finds no row, the transition check is skipped entirely, so no error the
save raises can carry the invalid-transition rule, whatever status is being
written. -/
theorem c10_missing_row_skips_check :
    ∀ (env : Env) (db : ListingDB) (l : Listing) (now k : Nat) (es : List Rule),
      l.pk = some k → k ≠ 0 → lookup_status db k = none →
      listing_save env db l now = .error (.validation es) →
      Rule.invalidTransition ∉ es := by
  intro env db l now k es hpk hk hlook hsave
  have hpt : pyTruthy (some k) = true := by simp [pyTruthy, hk]
  have hrun : listing_save_run env db l now =
      after_transition env db l none now := by
    simp [listing_save_run, hpt, hpk, hlook]
  exact save_after_no_invalid hrun hsave

/-- Witness for C10: a pk-carrying instance whose row is gone saves over an
empty table; writing it with a missing price fails, but only with the
price-required rule, not with the invalid-transition rule. -/
theorem c10_witness :
    listing_save ⟨[(10, 2)], [2]⟩ []
        ⟨some 9, some 2, some 10, none, ListingStatus.active, none, none, none, none⟩ 5 =
      .error (.validation [.priceRequired]) ∧
    Rule.invalidTransition ∉ [Rule.priceRequired] :=
  ⟨rfl,
    c10_missing_row_skips_check ⟨[(10, 2)], [2]⟩ []
      ⟨some 9, some 2, some 10, none, ListingStatus.active, none, none, none, none⟩
      5 9 [Rule.priceRequired] rfl (by decide) rfl rfl⟩

/-- C3: each of published_at, sold_at and archived_at is sticky.  At the
function level: a non-null value survives any timestamp pass unchanged; a null
value is set to `now` exactly on first entry into the corresponding state from
a different previous state; a re-save of the persisted status is a no-op on
all three fields.  At the save level: any successful save keeps every already
set lifecycle timestamp at exactly its old value. -/
theorem c3_sticky_timestamps :
    (∀ (l : Listing) (prev : Option ListingStatus) (now t : Nat),
        l.published_at = some t →
        (apply_status_timestamps l prev now).published_at = some t) ∧
    (∀ (l : Listing) (prev : Option ListingStatus) (now t : Nat),
        l.sold_at = some t →
        (apply_status_timestamps l prev now).sold_at = some t) ∧
    (∀ (l : Listing) (prev : Option ListingStatus) (now t : Nat),
        l.archived_at = some t →
        (apply_status_timestamps l prev now).archived_at = some t) ∧
    (∀ (l : Listing) (prev : Option ListingStatus) (now : Nat),
        l.published_at = none →
        (apply_status_timestamps l prev now).published_at =
          (if l.status == .active && prev != some ListingStatus.active then
            some now else none)) ∧
    (∀ (l : Listing) (prev : Option ListingStatus) (now : Nat),
        l.sold_at = none →
        (apply_status_timestamps l prev now).sold_at =
          (if l.status == .sold && prev != some ListingStatus.sold then
            some now else none)) ∧
    (∀ (l : Listing) (prev : Option ListingStatus) (now : Nat),
        l.archived_at = none →
        (apply_status_timestamps l prev now).archived_at =
          (if l.status == .archived && prev != some ListingStatus.archived then
            some now else none)) ∧
    (∀ (l : Listing) (now : Nat),
        apply_status_timestamps l (some l.status) now = l) ∧
    (∀ (env : Env) (db : ListingDB) (l : Listing) (now : Nat) (l2 : Listing)
        (db2 : ListingDB) (t : Nat),
        listing_save env db l now = .ok (l2, db2) →
        (l.published_at = some t → l2.published_at = some t) ∧
        (l.sold_at = some t → l2.sold_at = some t) ∧
        (l.archived_at = some t → l2.archived_at = some t)) := by
  have hpub : ∀ (l : Listing) (prev : Option ListingStatus) (now t : Nat),
      l.published_at = some t →
      (apply_status_timestamps l prev now).published_at = some t := by
    intro l prev now t h
    rw [apply_status_timestamps_eq]
    simp [h]
  have hsold : ∀ (l : Listing) (prev : Option ListingStatus) (now t : Nat),
      l.sold_at = some t →
      (apply_status_timestamps l prev now).sold_at = some t := by
    intro l prev now t h
    rw [apply_status_timestamps_eq]
    simp [h]
  have harch : ∀ (l : Listing) (prev : Option ListingStatus) (now t : Nat),
      l.archived_at = some t →
      (apply_status_timestamps l prev now).archived_at = some t := by
    intro l prev now t h
    rw [apply_status_timestamps_eq]
    simp [h]
  have hnoop : ∀ (l : Listing) (now : Nat),
      apply_status_timestamps l (some l.status) now = l := by
    intro l now
    rw [apply_status_timestamps_eq]
    rcases l with ⟨pk, rid, cid, pa, st, pub, so, ar, up⟩
    cases st <;> simp
  refine ⟨hpub, hsold, harch, ?_, ?_, ?_, hnoop, ?_⟩
  · intro l prev now h
    rw [apply_status_timestamps_eq]
    simp [h]
  · intro l prev now h
    rw [apply_status_timestamps_eq]
    simp [h]
  · intro l prev now h
    rw [apply_status_timestamps_eq]
    simp [h]
  · intro env db l now l2 db2 t h
    obtain ⟨prev, -, hsup⟩ := save_ok_shape h
    obtain ⟨-, -, -, -, hp, hs, ha, -, -⟩ := super_save_ok_fields hsup
    exact ⟨fun ht => by rw [hp]; exact hpub l prev now t ht,
      fun ht => by rw [hs]; exact hsold l prev now t ht,
      fun ht => by rw [ha]; exact harch l prev now t ht⟩

/-- Witness for C3: a set published_at survives a timestamp pass, and a
successful no-op re-save of an `active` listing returns it with published_at
still at its old value. -/
theorem c3_witness :
    (apply_status_timestamps
        ⟨some 1, some 2, some 10, some 1, ListingStatus.active, some 3, none, none, none⟩
        (some ListingStatus.draft) 9).published_at = some 3 ∧
    (⟨some 1, some 2, some 10, some 1, ListingStatus.active, some 3, none, none, some 9⟩ :
        Listing).published_at = some 3 :=
  ⟨c3_sticky_timestamps.1
      ⟨some 1, some 2, some 10, some 1, ListingStatus.active, some 3, none, none, none⟩
      (some ListingStatus.draft) 9 3 rfl,
    (c3_sticky_timestamps.2.2.2.2.2.2.2 ⟨[(10, 2)], [2]⟩
      [⟨some 1, some 2, some 10, some 1, ListingStatus.active, some 3, none, none, some 0⟩]
      ⟨some 1, some 2, some 10, some 1, ListingStatus.active, some 3, none, none, some 0⟩
      9
      ⟨some 1, some 2, some 10, some 1, ListingStatus.active, some 3, none, none, some 9⟩
      [⟨some 1, some 2, some 10, some 1, ListingStatus.active, some 3, none, none, some 9⟩]
      3 rfl).1 rfl⟩

/-- C8: a rejected write is atomic: whenever `Listing.save` raises anything
other than a database-level IntegrityError — that is, the transition check or
a validation raises — the in-memory instance (all fields, lifecycle timestamps
included) and the table are exactly as they were before the call. -/
theorem c8_rejection_atomic :
    ∀ (env : Env) (db : ListingDB) (l : Listing) (now : Nat) (e : SaveExc),
      (listing_save_run env db l now).error = some e →
      e ≠ SaveExc.integrityError →
      (listing_save_run env db l now).listing = l ∧
      (listing_save_run env db l now).db = db := by
  intro env db l now e herr hne
  revert herr
  simp only [listing_save_run]
  split
  · split
    · split
      · intro _
        exact ⟨rfl, rfl⟩
      · intro h2
        exact after_transition_atomic h2 hne
    · intro h2
      exact after_transition_atomic h2 hne
  · split
    · intro _
      exact ⟨rfl, rfl⟩
    · intro h2
      exact after_transition_atomic h2 hne

/-- Witness for C8: an invalid creation attempt leaves the instance and the
(empty) table untouched. -/
theorem c8_witness :
    (listing_save_run ⟨[(10, 2)], [2]⟩ []
        ⟨none, some 2, some 10, some 3, ListingStatus.sold, none, none, none, none⟩
        5).listing =
      ⟨none, some 2, some 10, some 3, ListingStatus.sold, none, none, none, none⟩ ∧
    (listing_save_run ⟨[(10, 2)], [2]⟩ []
        ⟨none, some 2, some 10, some 3, ListingStatus.sold, none, none, none, none⟩
        5).db = [] :=
  c8_rejection_atomic ⟨[(10, 2)], [2]⟩ []
    ⟨none, some 2, some 10, some 3, ListingStatus.sold, none, none, none, none⟩
    5 (.validation [.invalidTransition]) rfl (by decide)

/-- C6: a listing written with status active or sold and a null price is never
persisted; in the concrete scenario of a persisted draft updated to active
with a valid city, a null price fails with exactly the PriceRequired rule,
while the same update with a non-negative price succeeds. -/
theorem c6_price_required :
    (∀ (env : Env) (db : ListingDB) (l : Listing) (now : Nat),
        (l.status = ListingStatus.active ∨ l.status = ListingStatus.sold) →
        l.price_amount = none →
        ∀ res, listing_save env db l now ≠ .ok res) ∧
    (∀ (env : Env) (db : ListingDB) (l : Listing) (now k c r : Nat),
        l.pk = some k → k ≠ 0 → lookup_status db k = some .draft →
        l.status = ListingStatus.active → l.price_amount = none →
        l.city_id = some c → c ≠ 0 → l.region_id = some r → r ≠ 0 →
        city_region env.cities c = some r →
        listing_save env db l now = .error (.validation [.priceRequired])) ∧
    (∀ (env : Env) (db : ListingDB) (now k c r : Nat) (p : Int)
        (pub so ar up : Option Nat),
        k ≠ 0 → c ≠ 0 → r ≠ 0 → 0 ≤ p →
        lookup_status db k = some .draft →
        city_region env.cities c = some r → env.regions.contains r = true →
        ∃ res, listing_save env db
          ⟨some k, some r, some c, some p, ListingStatus.active, pub, so, ar, up⟩
          now = .ok res) := by
  refine ⟨?_, ?_, ?_⟩
  · intro env db l now hst hpr res hok
    rcases res with ⟨l2, db2⟩
    obtain ⟨prev, hclean, -⟩ := save_ok_shape hok
    exact model_clean_none_price (full_clean_none_clean hclean) hst hpr
  · intro env db l now k c r hpk hk hlook hst hpr hc hc0 hr hr0 hcr
    have hpt : pyTruthy (some k) = true := by simp [pyTruthy, hk]
    have hclean : model_full_clean env.cities l =
        some (.validation [.priceRequired]) := by
      simp [model_full_clean, model_clean, clean_fields, validate_constraints,
        pyTruthy, hc, hc0, hr, hr0, hcr, hst, hpr]
    simp [listing_save, listing_save_run, hpt, hpk, hlook, hst,
      can_transition_to, STATUS_TRANSITIONS, after_transition, hclean]
  · intro env db now k c r p pub so ar up hk hc0 hr0 hp hlook hcr hreg
    have hpt : pyTruthy (some k) = true := by simp [pyTruthy, hk]
    have hrun : listing_save_run env db
        ⟨some k, some r, some c, some p, ListingStatus.active, pub, so, ar, up⟩ now =
        after_transition env db
          ⟨some k, some r, some c, some p, ListingStatus.active, pub, so, ar, up⟩
          (some .draft) now := by
      simp [listing_save_run, hpt, hlook, can_transition_to, STATUS_TRANSITIONS]
    have hclean : model_full_clean env.cities
        ⟨some k, some r, some c, some p, ListingStatus.active, pub, so, ar, up⟩ = none := by
      have hnn : ¬p < 0 := not_lt.mpr hp
      simp [model_full_clean, model_clean, clean_fields, validate_constraints,
        pyTruthy, hc0, hr0, hcr, hnn]
    refine listing_save_ok_of hrun hclean (super_save_ok_of ?_ ?_)
    · rw [fk_ok_apply]
      simp [fk_ok, hcr]
      exact contains_mem hreg
    · rw [(apply_ts_fields _ _ _).2.2.2.1]
      simp only []
      have hnn : ¬p < 0 := not_lt.mpr hp
      simp [hnn]

/-- Witness for C6: the three parts at a concrete persisted draft listing:
no active-with-null-price state is ever persisted, the null-price update is
rejected with PriceRequired, and the priced update goes through. -/
theorem c6_witness :
    (listing_save ⟨[(10, 2)], [2]⟩
        [⟨some 1, some 2, some 10, none, ListingStatus.draft, none, none, none, some 0⟩]
        ⟨some 1, some 2, some 10, none, ListingStatus.active, none, none, none, some 0⟩ 5 ≠
      .ok (⟨some 1, some 2, some 10, none, ListingStatus.active, some 5, none, none, some 5⟩,
        [⟨some 1, some 2, some 10, none, ListingStatus.active, some 5, none, none, some 5⟩])) ∧
    listing_save ⟨[(10, 2)], [2]⟩
        [⟨some 1, some 2, some 10, none, ListingStatus.draft, none, none, none, some 0⟩]
        ⟨some 1, some 2, some 10, none, ListingStatus.active, none, none, none, some 0⟩ 5 =
      .error (.validation [.priceRequired]) ∧
    (∃ res, listing_save ⟨[(10, 2)], [2]⟩
        [⟨some 1, some 2, some 10, none, ListingStatus.draft, none, none, none, some 0⟩]
        ⟨some 1, some 2, some 10, some 150, ListingStatus.active, none, none, none, some 0⟩ 5 =
      .ok res) :=
  ⟨c6_price_required.1 ⟨[(10, 2)], [2]⟩
      [⟨some 1, some 2, some 10, none, ListingStatus.draft, none, none, none, some 0⟩]
      ⟨some 1, some 2, some 10, none, ListingStatus.active, none, none, none, some 0⟩
      5 (Or.inl rfl) rfl _,
    c6_price_required.2.1 ⟨[(10, 2)], [2]⟩
      [⟨some 1, some 2, some 10, none, ListingStatus.draft, none, none, none, some 0⟩]
      ⟨some 1, some 2, some 10, none, ListingStatus.active, none, none, none, some 0⟩
      5 1 10 2 rfl (by decide) rfl rfl rfl rfl (by decide) rfl (by decide) rfl,
    c6_price_required.2.2 ⟨[(10, 2)], [2]⟩
      [⟨some 1, some 2, some 10, none, ListingStatus.draft, none, none, none, some 0⟩]
      5 1 10 2 150 none none none (some 0) (by decide) (by decide) (by decide)
      (by decide) rfl rfl rfl⟩

/-- C7: on every write the city must belong to the listing's region: over
reference data with positive ids, any successful save leaves the listing with
an assigned city whose parent region is exactly the listing's region; a write
with a mismatched pair is never persisted; and on an otherwise clean new draft
the raised validation carries the ReferentialMismatch rule. -/
theorem c7_city_region_consistency :
    (∀ (env : Env) (db : ListingDB) (l : Listing) (now : Nat)
        (l2 : Listing) (db2 : ListingDB),
        posEnv env →
        listing_save env db l now = .ok (l2, db2) →
        ∃ c r, l2.city_id = some c ∧ l2.region_id = some r ∧
          city_region env.cities c = some r) ∧
    (∀ (env : Env) (db : ListingDB) (l : Listing) (now c r cr : Nat),
        l.city_id = some c → c ≠ 0 → l.region_id = some r → r ≠ 0 →
        city_region env.cities c = some cr → cr ≠ r →
        ∀ res, listing_save env db l now ≠ .ok res) ∧
    (∀ (env : Env) (db : ListingDB) (now c r cr : Nat) (p : Option Int)
        (pub so ar up : Option Nat),
        c ≠ 0 → r ≠ 0 →
        city_region env.cities c = some cr → cr ≠ r →
        ∃ es, listing_save env db
            ⟨none, some r, some c, p, ListingStatus.draft, pub, so, ar, up⟩ now =
          .error (.validation es) ∧ Rule.referentialMismatch ∈ es) := by
  refine ⟨?_, ?_, ?_⟩
  · intro env db l now l2 db2 hpos hok
    obtain ⟨prev, hclean, hsup⟩ := save_ok_shape hok
    obtain ⟨hreg2, hcity2, -, -, -, -, -, -, hfk⟩ := super_save_ok_fields hsup
    rw [fk_ok_apply] at hfk
    obtain ⟨c, r, hc, hr, hcrs, hcont⟩ := fk_ok_spec hfk
    obtain ⟨cr, hcr⟩ := Option.isSome_iff_exists.mp hcrs
    have hc0 : c ≠ 0 := by
      have := hpos.1 _ (city_region_mem hcr)
      omega
    have hr0 : r ≠ 0 := by
      have := hpos.2 _ (contains_mem hcont)
      omega
    have hcrr : cr = r := by
      by_contra hne
      have hmis := model_clean_mismatch hc hc0 hr hr0 hcr hne
      rw [full_clean_none_clean hclean] at hmis
      exact absurd hmis (by simp)
    refine ⟨c, r, ?_, ?_, hcrr ▸ hcr⟩
    · rw [hcity2, (apply_ts_fields l prev now).2.2.1, hc]
    · rw [hreg2, (apply_ts_fields l prev now).2.1, hr]
  · intro env db l now c r cr hc hc0 hr hr0 hcr hne res hok
    rcases res with ⟨l2, db2⟩
    obtain ⟨prev, hclean, -⟩ := save_ok_shape hok
    have hmis := model_clean_mismatch hc hc0 hr hr0 hcr hne
    rw [full_clean_none_clean hclean] at hmis
    exact absurd hmis (by simp)
  · intro env db now c r cr p pub so ar up hc0 hr0 hcr hne
    refine ⟨[Rule.referentialMismatch] ++
      validate_constraints
        ⟨none, some r, some c, p, ListingStatus.draft, pub, so, ar, up⟩, ?_, by simp⟩
    simp [listing_save, listing_save_run, after_transition, model_full_clean,
      model_clean, clean_fields, pyTruthy, hc0, hr0, hcr, hne]

/-- Witness for C7: the three parts on concrete data: a successful save with a
matching pair, rejection of a mismatched update, and the mismatch rule in the
error of a mismatched creation. -/
theorem c7_witness :
    (∃ c r, (⟨some 1, some 2, some 10, some 3, ListingStatus.draft, none, none, none,
          some 5⟩ : Listing).city_id = some c ∧
        (⟨some 1, some 2, some 10, some 3, ListingStatus.draft, none, none, none,
          some 5⟩ : Listing).region_id = some r ∧
        city_region [(10, 2)] c = some r) ∧
    (listing_save ⟨[(10, 3)], [2, 3]⟩ []
        ⟨none, some 2, some 10, some 3, ListingStatus.draft, none, none, none, none⟩ 5 ≠
      .ok (⟨some 1, some 2, some 10, some 3, ListingStatus.draft, none, none, none, some 5⟩,
        [⟨some 1, some 2, some 10, some 3, ListingStatus.draft, none, none, none, some 5⟩])) ∧
    (∃ es, listing_save ⟨[(10, 3)], [2, 3]⟩ []
        ⟨none, some 2, some 10, some 3, ListingStatus.draft, none, none, none, none⟩ 5 =
      .error (.validation es) ∧ Rule.referentialMismatch ∈ es) :=
  ⟨c7_city_region_consistency.1 ⟨[(10, 2)], [2]⟩
      [⟨some 1, some 2, some 10, some 3, ListingStatus.draft, none, none, none, some 0⟩]
      ⟨some 1, some 2, some 10, some 3, ListingStatus.draft, none, none, none, some 0⟩
      5
      ⟨some 1, some 2, some 10, some 3, ListingStatus.draft, none, none, none, some 5⟩
      [⟨some 1, some 2, some 10, some 3, ListingStatus.draft, none, none, none, some 5⟩]
      (by constructor <;> simp) rfl,
    c7_city_region_consistency.2.1 ⟨[(10, 3)], [2, 3]⟩ []
      ⟨none, some 2, some 10, some 3, ListingStatus.draft, none, none, none, none⟩
      5 10 2 3 rfl (by decide) rfl (by decide) rfl (by decide) _,
    c7_city_region_consistency.2.2 ⟨[(10, 3)], [2, 3]⟩ [] 5 10 2 3 (some 3)
      none none none none (by decide) (by decide) rfl (by decide)⟩

/-! ### Counting helpers for the primary-image constraint -/

theorem two_mem_countP {α : Type} (p : α → Bool) {l : List α} {a b : α}
    (ha : a ∈ l) (hb : b ∈ l) (hne : a ≠ b) (hpa : p a = true)
    (hpb : p b = true) : 2 ≤ l.countP p := by
  obtain ⟨s, t, rfl⟩ := List.append_of_mem ha
  rcases List.mem_append.1 hb with hb | hb
  · have h1 : 0 < s.countP p := List.countP_pos_iff.2 ⟨b, hb, hpb⟩
    simp [List.countP_append, List.countP_cons, hpa]
    omega
  · rcases List.mem_cons.1 hb with he | hb
    · exact absurd he.symm hne
    · have h1 : 0 < t.countP p := List.countP_pos_iff.2 ⟨b, hb, hpb⟩
      simp [List.countP_append, List.countP_cons, hpa]
      omega

theorem uniquePrimaryOk_count {db : ImageDB} (h : uniquePrimaryOk db = true)
    (lid : Nat) : primaryCount db lid ≤ 1 := by
  by_contra hgt
  push_neg at hgt
  have hpos : 0 < primaryCount db lid := by omega
  obtain ⟨i, hi, hp⟩ := List.countP_pos_iff.1 hpos
  simp only [Bool.and_eq_true, beq_iff_eq] at hp
  have hall := List.all_eq_true.1 h i hi
  rw [hp.1] at hall
  simp at hall
  omega

/-- C4 counterexample: a single write violating both the city-belongs-to-region
rule and the price-required-for-active rule reports only ReferentialMismatch:
`Listing.clean` raises at its first failed check, so the violated price rule
never reaches the collected errors. -/
theorem c4_counterexample :
    model_full_clean [(10, 3)]
        ⟨none, some 2, some 10, none, ListingStatus.active, none, none, none, none⟩ =
      some (.validation [.referentialMismatch]) ∧
    (⟨none, some 2, some 10, none, ListingStatus.active, none, none, none, none⟩ :
        Listing).status = ListingStatus.active ∧
    (⟨none, some 2, some 10, none, ListingStatus.active, none, none, none, none⟩ :
        Listing).price_amount = none ∧
    listing_save ⟨[(10, 3)], [2, 3]⟩ []
        ⟨none, some 2, some 10, none, ListingStatus.active, none, none, none, none⟩ 0 =
      .error (.validation [.referentialMismatch]) ∧
    Rule.priceRequired ∉ [Rule.referentialMismatch] :=
  ⟨rfl, rfl, rfl, rfl, by decide⟩

/-- C4 (amended): validation is not collect-all across the two rules of
`Listing.clean`: the method raises at its first violated rule, so a write
violating both the city rule and the price-required rule reports only
ReferentialMismatch.  Rules of different validation stages are still
aggregated: the clean() error and the price-non-negative constraint violation
are reported together. -/
theorem c4_validation_short_circuit :
    (∀ (cities : List (Nat × Nat)) (l : Listing) (c r cr : Nat),
        l.city_id = some c → c ≠ 0 → l.region_id = some r → r ≠ 0 →
        city_region cities c = some cr → cr ≠ r →
        (l.status = ListingStatus.active ∨ l.status = ListingStatus.sold) →
        l.price_amount = none →
        model_full_clean cities l = some (.validation [.referentialMismatch])) ∧
    (∀ (cities : List (Nat × Nat)) (l : Listing) (c r cr : Nat) (p : Int),
        l.city_id = some c → c ≠ 0 → l.region_id = some r → r ≠ 0 →
        city_region cities c = some cr → cr ≠ r →
        l.price_amount = some p → p < 0 →
        model_full_clean cities l =
          some (.validation [.referentialMismatch, .negativePrice])) := by
  constructor
  · intro cities l c r cr hc hc0 hr hr0 hcr hne hst hpr
    have hmis := model_clean_mismatch hc hc0 hr hr0 hcr hne
    simp [model_full_clean, hmis, clean_fields, validate_constraints, hc, hr, hpr]
  · intro cities l c r cr p hc hc0 hr hr0 hcr hne hpr hneg
    have hmis := model_clean_mismatch hc hc0 hr hr0 hcr hne
    simp [model_full_clean, hmis, clean_fields, validate_constraints, hc, hr,
      hpr, hneg]

/-- Witness for C4 (amended): concrete double violations showing the
short-circuit within clean() and the aggregation across stages. -/
theorem c4_witness :
    model_full_clean [(10, 3)]
        ⟨none, some 2, some 10, none, ListingStatus.sold, none, none, none, none⟩ =
      some (.validation [.referentialMismatch]) ∧
    model_full_clean [(10, 3)]
        ⟨none, some 2, some 10, some (-5), ListingStatus.draft, none, none, none, none⟩ =
      some (.validation [.referentialMismatch, .negativePrice]) :=
  ⟨c4_validation_short_circuit.1 [(10, 3)]
      ⟨none, some 2, some 10, none, ListingStatus.sold, none, none, none, none⟩
      10 2 3 rfl (by decide) rfl (by decide) rfl (by decide) (Or.inr rfl) rfl,
    c4_validation_short_circuit.2 [(10, 3)]
      ⟨none, some 2, some 10, some (-5), ListingStatus.draft, none, none, none, none⟩
      10 2 3 (-5) rfl (by decide) rfl (by decide) rfl (by decide) rfl (by decide)⟩

/-- C5: whatever image mutation the code commits, a successful write always
leaves every listing with at most one primary image, and any row change whose
resulting table would break the partial unique constraint is rejected as
PrimaryImageConflict, so the invariant holds in every persisted state. -/
theorem c5_unique_primary_invariant :
    (∀ (db : ImageDB) (op : ImageOp) (db2 : ImageDB),
        image_write db op = .ok db2 →
        ∀ lid, primaryCount db2 lid ≤ 1) ∧
    (∀ (db : ImageDB) (op : ImageOp) (cand : ImageDB),
        imageApply db op = .ok cand →
        uniquePrimaryOk cand = false →
        image_write db op = .error .primaryImageConflict) := by
  constructor
  · intro db op db2 h lid
    have hok : uniquePrimaryOk db2 = true := by
      revert h
      simp only [image_write]
      split
      · simp
      · split
        · rename_i hu
          intro h2
          simp only [Except.ok.injEq] at h2
          subst h2
          exact hu
        · simp
    exact uniquePrimaryOk_count hok lid
  · intro db op cand happ hu
    simp [image_write, happ, hu]

/-- Witness for C5: a successful insert leaves a one-primary table, and an
insert of a second primary for the same listing is rejected. -/
theorem c5_witness :
    (∀ lid, primaryCount [⟨some 1, 7, 0, true⟩] lid ≤ 1) ∧
    image_write [⟨some 1, 7, 0, true⟩] (.insert ⟨7, 1, true⟩) =
      .error .primaryImageConflict :=
  ⟨c5_unique_primary_invariant.1 [] (.insert ⟨7, 0, true⟩) [⟨some 1, 7, 0, true⟩] rfl,
    c5_unique_primary_invariant.2 [⟨some 1, 7, 0, true⟩] (.insert ⟨7, 1, true⟩)
      [⟨some 1, 7, 0, true⟩, ⟨some 2, 7, 1, true⟩] rfl rfl⟩

/-- C9 counterexample: no operation of the code clears the other images'
is_primary.  With image 1 primary and image 2 (same listing 7) not, the only
write path the code exposes for making image 2 primary — the generic
ListingImage update — is rejected by the unique-primary constraint, while the
setPrimary operation described by the spec would succeed and clear image 1:
at this input the code's behaviour and the specified operation differ. -/
theorem c9_counterexample :
    image_write [⟨some 1, 7, 0, true⟩, ⟨some 2, 7, 1, false⟩]
        (.update 2 ⟨7, 1, true⟩) = .error .primaryImageConflict ∧
    set_primary_spec [⟨some 1, 7, 0, true⟩, ⟨some 2, 7, 1, false⟩] 7 2 =
      .ok [⟨some 1, 7, 0, false⟩, ⟨some 2, 7, 1, true⟩] ∧
    image_write [⟨some 1, 7, 0, true⟩, ⟨some 2, 7, 1, false⟩]
        (.update 2 ⟨7, 1, true⟩) ≠
      set_primary_spec [⟨some 1, 7, 0, true⟩, ⟨some 2, 7, 1, false⟩] 7 2 := by
  have h1 : image_write [⟨some 1, 7, 0, true⟩, ⟨some 2, 7, 1, false⟩]
      (.update 2 ⟨7, 1, true⟩) = .error .primaryImageConflict := rfl
  have h2 : set_primary_spec [⟨some 1, 7, 0, true⟩, ⟨some 2, 7, 1, false⟩] 7 2 =
      .ok [⟨some 1, 7, 0, false⟩, ⟨some 2, 7, 1, true⟩] := rfl
  refine ⟨h1, h2, ?_⟩
  rw [h1, h2]
  intro h
  exact Except.noConfusion h

/-- C9 (amended): the code exposes no setPrimary operation; images are written
only through the generic single-row write, which never touches other rows: an
update naming an image id with no row fails NotFound, and an update that marks
an image primary while another image of the same listing is primary is
rejected with PrimaryImageConflict instead of clearing the other image. -/
theorem c9_generic_image_write :
    (∀ (db : ImageDB) (k : Nat) (p : ImagePayload),
        lookup_image db k = none →
        image_write db (.update k p) = .error .notFound) ∧
    (∀ (db : ImageDB) (k : Nat) (p : ImagePayload) (j : ListingImage),
        j ∈ db → j.pk ≠ some k → j.listing_id = p.listing_id →
        j.is_primary = true → p.is_primary = true →
        (lookup_image db k).isSome = true →
        image_write db (.update k p) = .error .primaryImageConflict) := by
  constructor
  · intro db k p h
    simp [image_write, imageApply, h]
  · intro db k p j hj hjk hjl hjp hpp hex
    have happ : imageApply db (.update k p) = .ok (db.map (fun i =>
        if i.pk == some k then ⟨some k, p.listing_id, p.sort_order, p.is_primary⟩
        else i)) := by
      simp [imageApply, hex]
    obtain ⟨row, hrow⟩ := Option.isSome_iff_exists.mp hex
    have hrow2 : db.find? (fun i => i.pk == some k) = some row := hrow
    have hrowmem : row ∈ db := List.mem_of_find?_eq_some hrow2
    have hrowpk : row.pk = some k := by
      have := List.find?_some hrow2
      simpa using this
    have hupd : (⟨some k, p.listing_id, p.sort_order, p.is_primary⟩ : ListingImage) ∈
        db.map (fun i =>
          if i.pk == some k then ⟨some k, p.listing_id, p.sort_order, p.is_primary⟩
          else i) := by
      refine List.mem_map.2 ⟨row, hrowmem, ?_⟩
      simp [hrowpk]
    have hjmem : j ∈ db.map (fun i =>
        if i.pk == some k then ⟨some k, p.listing_id, p.sort_order, p.is_primary⟩
        else i) := by
      refine List.mem_map.2 ⟨j, hj, ?_⟩
      have hb : (j.pk == some k) = false := by
        simp [hjk]
      simp [hb]
    have hne : j ≠ (⟨some k, p.listing_id, p.sort_order, p.is_primary⟩ : ListingImage) := by
      intro he
      apply hjk
      rw [he]
    have hcount : 2 ≤ primaryCount (db.map (fun i =>
        if i.pk == some k then ⟨some k, p.listing_id, p.sort_order, p.is_primary⟩
        else i)) p.listing_id := by
      apply two_mem_countP _ hjmem hupd hne
      · simp [hjl, hjp]
      · simp [hpp]
    have hu : uniquePrimaryOk (db.map (fun i =>
        if i.pk == some k then ⟨some k, p.listing_id, p.sort_order, p.is_primary⟩
        else i)) = false := by
      cases hq : uniquePrimaryOk (db.map (fun i =>
          if i.pk == some k then ⟨some k, p.listing_id, p.sort_order, p.is_primary⟩
          else i))
      · rfl
      · exfalso
        have := uniquePrimaryOk_count hq p.listing_id
        omega
    simp only [image_write, happ, hu]
    simp

/-- Witness for C9 (amended): the two failure modes at concrete tables. -/
theorem c9_witness :
    image_write [⟨some 1, 7, 0, true⟩] (.update 3 ⟨7, 1, true⟩) =
      .error .notFound ∧
    image_write [⟨some 1, 7, 0, true⟩, ⟨some 2, 7, 1, false⟩]
        (.update 2 ⟨7, 1, true⟩) = .error .primaryImageConflict :=
  ⟨c9_generic_image_write.1 [⟨some 1, 7, 0, true⟩] 3 ⟨7, 1, true⟩ rfl,
    c9_generic_image_write.2 [⟨some 1, 7, 0, true⟩, ⟨some 2, 7, 1, false⟩] 2
      ⟨7, 1, true⟩ ⟨some 1, 7, 0, true⟩ (by simp) (by simp) rfl rfl rfl rfl⟩

end InfinityLife
